import Mathlib

set_option maxHeartbeats 1000000

/-!
Shallow embedding of the tool-calling orchestration core of the repository
(`get_worker_client.py`, `app.py`).  Python values that cross the boundary
of the orchestration loop are modelled explicitly: parsed JSON arguments as
`JsonVal`, raw tool responses as `PyObj` (a Python object that may expose
`content` and `text` attributes), exceptions as `PyErr` carried in `Except`.
All external collaborators (the JSON parser of the standard library, the MCP
session, the LLM completion endpoint) are oracles collected in `Env`; the
code of the repository itself is translated line by line into `process_query`,
`cleanup` and `connect_to_server`.
-/

/-- Message roles used by the chat protocol (`system`, `user`, `assistant`,
`tool`), as in the message dicts of `process_query`. -/
inductive Role where
  | system
  | user
  | assistant
  | tool
deriving DecidableEq

/-- Python exceptions that the embedded code can raise or observe. -/
inductive PyErr where
  | attributeError
  | unboundLocalError
  | valueError (msg : String)
  | processLookupError
  | exc (msg : String)
deriving DecidableEq

/-- `str(e)` of an exception, used when error text is spliced into output. -/
def PyErr.text : PyErr → String
  | .attributeError => "AttributeError"
  | .unboundLocalError => "local variable referenced before assignment"
  | .valueError m => m
  | .processLookupError => "ProcessLookupError"
  | .exc m => m

/-- A single-quote character as a string (used by Python `str()`/`repr()`
renderings of dicts and strings). -/
def squote : String := String.singleton (Char.ofNat 39)

/-- Structured data produced by `json.loads` on a tool call's raw argument
text. -/
inductive JsonVal where
  | str (s : String)
  | num (n : Int)
  | bool (b : Bool)
  | null
  | arr (xs : List JsonVal)
  | obj (kvs : List (String × JsonVal))

mutual

/-- Python `repr()` of a JSON-loaded value (dict/list rendering with single
quotes, `True`/`False`/`None`). -/
def JsonVal.pyRepr : JsonVal → String
  | .str s => squote ++ s ++ squote
  | .num n => toString n
  | .bool b => cond b "True" "False"
  | .null => "None"
  | .arr xs => "[" ++ JsonVal.pyReprList xs ++ "]"
  | .obj kvs => "\x7b" ++ JsonVal.pyReprObj kvs ++ "\x7d"

/-- Comma-separated `repr()` of list elements. -/
def JsonVal.pyReprList : List JsonVal → String
  | [] => ""
  | [x] => JsonVal.pyRepr x
  | x :: y :: xs => JsonVal.pyRepr x ++ ", " ++ JsonVal.pyReprList (y :: xs)

/-- Comma-separated `repr()` of dict entries. -/
def JsonVal.pyReprObj : List (String × JsonVal) → String
  | [] => ""
  | [(k, v)] => squote ++ k ++ squote ++ ": " ++ JsonVal.pyRepr v
  | (k, v) :: e :: kvs =>
      squote ++ k ++ squote ++ ": " ++ JsonVal.pyRepr v ++ ", " ++ JsonVal.pyReprObj (e :: kvs)

end

/-- Python `str()` of a JSON-loaded value: a bare string renders without
quotes, everything else renders as its `repr()`. -/
def JsonVal.pyToStr : JsonVal → String
  | .str s => s
  | v => v.pyRepr

/-- Dict lookup on parsed arguments (`tool_args["k"]` / `"k" in tool_args`);
`none` when the value is not a dict or the key is absent. -/
def argsLookup : JsonVal → String → Option JsonVal
  | .obj kvs, k => kvs.lookup k
  | _, _ => none

/-- A Python object as seen by the response-normalization code: a list, a
plain string, or an object with an optional `content` attribute, an optional
`text` attribute and a `str()` rendering. -/
inductive PyObj where
  | plist (xs : List PyObj)
  | pstr (s : String)
  | pobj (content : Option PyObj) (text : Option String) (strRepr : String)

mutual

/-- Python `repr()` of such an object. -/
def PyObj.reprOf : PyObj → String
  | .pstr s => squote ++ s ++ squote
  | .pobj _ _ rp => rp
  | .plist xs => "[" ++ PyObj.reprListOf xs ++ "]"

/-- Comma-separated `repr()` of list elements. -/
def PyObj.reprListOf : List PyObj → String
  | [] => ""
  | [x] => PyObj.reprOf x
  | x :: y :: xs => PyObj.reprOf x ++ ", " ++ PyObj.reprListOf (y :: xs)

end

/-- Python `str()` of such an object. -/
def PyObj.strOf : PyObj → String
  | .pstr s => s
  | .pobj _ _ rp => rp
  | .plist xs => "[" ++ PyObj.reprListOf xs ++ "]"

/-- Attribute access `x.content`; raises `AttributeError` when the object
carries no `content` attribute (lists and strings never do). -/
def getattrContent : PyObj → Except PyErr PyObj
  | .pobj (some c) _ _ => .ok c
  | _ => .error .attributeError

/-- Lines 114–117 of `get_worker_client.py`: concatenate `item.text` over the
items of a list that expose a `text` attribute. -/
def concatTexts : List PyObj → String
  | [] => ""
  | .pobj _ (some t) _ :: rest => t ++ concatTexts rest
  | _ :: rest => concatTexts rest

/-- Lines 112–120 of `get_worker_client.py`:
`tool_result_content = tool_response.content` followed by branching on the
type of `tool_response` itself.  The `content` access happens first, so a
response that is a bare list or string raises `AttributeError` before the
branches are reached; an attribute-bearing object falls into the
`elif not isinstance(tool_response, str)` branch and is stringified whole. -/
def normalizeToolResponse (r : PyObj) : Except PyErr String := do
  let c ← getattrContent r
  match r with
  | .plist xs => pure (concatTexts xs)
  | .pstr _ => pure c.strOf
  | .pobj _ _ rp => pure rp

/-- The normalization contract as the spec states it (§3 ToolResult): used
only to compare the spec's wording against `normalizeToolResponse`.  If the
raw result is a sequence of content items, concatenate the text of every item
that exposes text; if it is already text, use it verbatim; otherwise
stringify it. -/
def specToolResultRule : PyObj → String
  | .plist xs => concatTexts xs
  | .pstr s => s
  | r => r.strOf

/-- A requested tool invocation as returned by the completion endpoint:
`tool_call.id`, `tool_call.function.name`, `tool_call.function.arguments`. -/
structure ToolCall where
  id : String
  name : String
  arguments : String
deriving DecidableEq

/-- One entry of the `messages` list sent to the completion endpoint.  The
assistant message returned by the initial completion additionally carries its
tool-call descriptors. -/
structure Message where
  role : Role
  content : String
  tool_call_id : Option String
  toolCalls : List ToolCall
deriving DecidableEq

/-- A tool descriptor as returned by `session.list_tools()`. -/
structure ToolDescriptor where
  name : String
  description : String
  inputSchema : JsonVal

/-- One entry of the `tools=` argument built at lines 76–83
(`{"type": "function", "function": {...}}`). -/
structure OpenAITool where
  type : String
  name : String
  description : String
  parameters : JsonVal

/-- Lines 76–83: shape the listed tools for the completion endpoint. -/
def availableTools (ts : List ToolDescriptor) : List OpenAITool :=
  ts.map fun t => ⟨"function", t.name, t.description, t.inputSchema⟩

/-- Parameters of a completion call: `max_tokens`, `temperature` in tenths
of the API unit (absent means the endpoint default of 1.0, i.e. 10 tenths),
and whether a `tools=` set is passed. -/
structure CompletionParams where
  maxTokens : Nat
  temperature : Option Nat
  withTools : Bool
deriving DecidableEq

/-- Parameters of the initial completion call (lines 87–92): tools passed,
no explicit temperature. -/
def initialParams : CompletionParams :=
  { maxTokens := 4096, temperature := none, withTools := true }

/-- Parameters of the in-loop completion call (lines 155–160): no tools,
`temperature=0.5`, i.e. 5 tenths. -/
def finalParams : CompletionParams :=
  { maxTokens := 4096, temperature := some 5, withTools := false }

/-- The assistant message produced by the initial completion
(`response.choices[0].message`). -/
structure InitialResponse where
  content : String
  tool_calls : List ToolCall

/-- One role-tagged message of a rendered prompt template. -/
structure PromptMessage where
  role : String
  content : PyObj

/-- The object returned by `session.get_prompt`; the code at line 141 probes
it with `hasattr(..., 'messages') and hasattr(..., 'message')`. -/
structure PromptResult where
  hasMessagesAttr : Bool
  hasMessageAttr : Bool
  messages : List PromptMessage

/-- External collaborators of the orchestration loop, as oracles: the MCP
session (`list_tools`, `call_tool`, `get_prompt`), the completion endpoint
(initial and in-loop call), and the standard library JSON parser. -/
structure Env where
  listTools : Except PyErr (List ToolDescriptor)
  initialCompletion : List Message → List OpenAITool → Except PyErr InitialResponse
  jsonLoads : String → Except PyErr JsonVal
  callTool : String → JsonVal → Except PyErr PyObj
  getPrompt : JsonVal → List (String × String) → Except PyErr PromptResult
  finalCompletion : List Message → Except PyErr String

/-- Observable external invocations made by the loop: a completion call with
its parameters, or a tool execution. -/
inductive Event where
  | llmCall (ps : CompletionParams)
  | toolExec (name : String)
deriving DecidableEq

/-- State threaded through the tool-call loop of `process_query`: the
`messages` list, the `final_text` fragment list, the trace of external
invocations, the value currently bound to the Python local `tool_args`
(`none` while still unassigned), and — as a pure observation — the
(announcement, normalized result) pair of every executed tool call. -/
structure LoopState where
  messages : List Message
  final_text : List String
  events : List Event
  lastArgs : Option JsonVal
  executed : List (String × String)

/-- How one iteration of the loop ended: proceed to the next tool call, or
leave the loop (early `return`, or an uncaught exception). -/
inductive LoopExit where
  | completed
  | finalCallFailed (e : PyErr)
  | raised (e : PyErr)
deriving DecidableEq

/-- Result of one loop iteration. -/
inductive StepRes where
  | next (st : LoopState)
  | stop (st : LoopState) (exit : LoopExit)

/-- The state carried by a step result. -/
def StepRes.state : StepRes → LoopState
  | .next st => st
  | .stop st _ => st

/-- Line 109: the announcement fragment
`f"Calling tool {tool_name} with args {tool_args}"`. -/
def announceOf (name : String) (args : JsonVal) : String :=
  "Calling tool " ++ name ++ " with args " ++ args.pyToStr

/-- Lines 124–128: the `tool` message appended for a resolved call. -/
def toolMessage (id text : String) : Message :=
  ⟨.tool, text, some id, []⟩

/-- Line 164: the fragment recording a failed in-loop completion call. -/
def errFinalText (e : PyErr) : String :=
  "Error in final LLM call: " ++ e.text

/-- Line 161: the fragment recording a successful in-loop completion call. -/
def okFinalText (s : String) : String :=
  "LLM final response: " ++ s

/-- Line 137: `{k: str(v) for k, v in template_args.items()}`. -/
def stringArgs (kvs : List (String × JsonVal)) : List (String × String) :=
  kvs.map fun kv => (kv.1, kv.2.pyToStr)

/-- Line 144 and 145–148: the surfaced line for one assistant-authored
template message, `f"LLM response: {template_message}"` where
`template_message` is the dict `{"role": ..., "content": ...}` and `content`
is `message.content.text` when the content exposes `text`, else the content
itself. -/
def templateLine (m : PromptMessage) : String :=
  let contentVal : PyObj :=
    match m.content with
    | .pobj _ (some t) _ => .pstr t
    | c => c
  "LLM response: \x7b" ++ squote ++ "role" ++ squote ++ ": " ++ squote ++ m.role ++ squote
    ++ ", " ++ squote ++ "content" ++ squote ++ ": " ++ contentVal.reprOf ++ "\x7d"

/-- Line 134: the duck-typed detection
`isinstance(tool_args, dict) and "prompt_template" in tool_args and
"template_args" in tool_args`. -/
def isTemplateRequest (args : JsonVal) : Bool :=
  (argsLookup args "prompt_template").isSome && (argsLookup args "template_args").isSome

/-- Lines 131–151, the `try`-guarded template block: when both keys are
present, coerce the template arguments to strings (`.items()` raises on a
non-dict `template_args`, caught at line 150), fetch the prompt, and — only
when the result exposes both a `messages` and a `message` attribute —
surface every assistant-authored line.  Every failure path yields no
fragments; nothing here touches the `messages` list. -/
def templateFragments (env : Env) (args : JsonVal) : List String :=
  match args with
  | .obj kvs =>
    match kvs.lookup "prompt_template", kvs.lookup "template_args" with
    | some pt, some (.obj targs) =>
      match env.getPrompt pt (stringArgs targs) with
      | .ok tr =>
        if tr.hasMessagesAttr && tr.hasMessageAttr then
          (tr.messages.filter fun m => m.role == "assistant").map templateLine
        else []
      | .error _ => []
    | some _, some _ => []
    | _, _ => []
  | _ => []

/-- State after lines 108–110 have announced the call and invoked the tool:
`tool_args` is bound, the announcement fragment is appended, and the tool
execution is on the trace. -/
def stAnnounced (st : LoopState) (tc : ToolCall) (args : JsonVal) : LoopState :=
  { st with lastArgs := some args,
            final_text := st.final_text ++ [announceOf tc.name args],
            events := st.events ++ [Event.toolExec tc.name] }

/-- State after lines 112–151 have normalized the response to `text`,
appended it to `final_text`, appended the `tool` message, run the template
block, and line 155 is about to invoke the in-loop completion (which is on
the trace). -/
def stResolved (env : Env) (st : LoopState) (tc : ToolCall) (args : JsonVal)
    (text : String) : LoopState :=
  let s1 := stAnnounced st tc args
  { s1 with messages := s1.messages ++ [toolMessage tc.id text],
            final_text := s1.final_text ++ [text] ++ templateFragments env args,
            executed := s1.executed ++ [(announceOf tc.name args, text)],
            events := s1.events ++ [Event.llmCall finalParams] }

/-- Append one fragment to `final_text`. -/
def withFrag (st : LoopState) (f : String) : LoopState :=
  { st with final_text := st.final_text ++ [f] }

/-- Lines 108–165 once `tool_args` holds the value `args`: announce, execute
the tool (an execution error propagates), normalize (an `AttributeError`
propagates), record result and `tool` message, run the template block, then
make the in-loop completion call — on its failure append the error fragment
and `return` (early exit), on success append the response fragment and
continue with the next tool call. -/
def execWithArgs (env : Env) (st : LoopState) (tc : ToolCall) (args : JsonVal) : StepRes :=
  let s1 := stAnnounced st tc args
  match env.callTool tc.name args with
  | .error e => .stop s1 (.raised e)
  | .ok resp =>
    match normalizeToolResponse resp with
    | .error e => .stop s1 (.raised e)
    | .ok text =>
      let s2 := stResolved env st tc args text
      match env.finalCompletion s2.messages with
      | .ok s => .next (withFrag s2 (okFinalText s))
      | .error e => .stop (withFrag s2 (errFinalText e)) (.finalCallFailed e)

/-- One iteration of the loop at line 100: lines 102–106 try to parse the
call's raw arguments, binding `tool_args` on success and only printing on
failure; execution then proceeds with whatever `tool_args` holds — the fresh
value, the stale value of the previous iteration, or nothing at all, in
which case line 108 raises `UnboundLocalError`. -/
def processToolCall (env : Env) (st : LoopState) (tc : ToolCall) : StepRes :=
  match env.jsonLoads tc.arguments with
  | .ok v => execWithArgs env st tc v
  | .error _ =>
    match st.lastArgs with
    | some a => execWithArgs env st tc a
    | none => .stop st (.raised .unboundLocalError)

/-- The `for tool_call in ...tool_calls:` loop of lines 100–165. -/
def runOut (st : LoopState) (exit : LoopExit) : LoopState × LoopExit := (st, exit)

/-- Run the loop over the remaining tool calls. -/
def runToolCalls (env : Env) (st : LoopState) : List ToolCall → LoopState × LoopExit
  | [] => (st, .completed)
  | tc :: rest =>
    match processToolCall env st tc with
    | .next st1 => runToolCalls env st1 rest
    | .stop st1 e => (st1, e)

/-- Line 67: the fixed system-persona instruction. -/
def sysPrompt : String :=
  "You are a professional AI Assistant. You can use the tools in the MCP Server to complete Workday HCM related tasks requested by the user."

/-- Lines 64–73: the initial Conversation State. -/
def initMessages (q : String) : List Message :=
  [⟨.system, sysPrompt, none, []⟩, ⟨.user, q, none, []⟩]

/-- Line 98: the assistant message of the initial completion, appended to
Conversation State before branching. -/
def assistantMsg (resp : InitialResponse) : Message :=
  ⟨.assistant, resp.content, none, resp.tool_calls⟩

/-- The loop state on entry to the tool-call loop: the three leading
messages, an empty `final_text`, the initial completion on the trace, and
`tool_args` still unbound. -/
def initLoopState (q : String) (resp : InitialResponse) : LoopState :=
  ⟨initMessages q ++ [assistantMsg resp], [], [Event.llmCall initialParams], none, []⟩

/-- Everything observable about one `process_query` run: the Conversation
State when the function left, the `final_text` fragments, the trace of
external invocations, and the returned string or the exception that
propagated out. -/
structure QueryOutcome where
  messages : List Message
  fragments : List String
  events : List Event
  result : Except PyErr String

/-- `MCPClient.process_query` (lines 57–170).  `session.list_tools()` at
line 75 propagates its failure.  The initial completion at lines 86–94 is
`try`-guarded with only a print in the handler, so when it fails, line 95
dereferences `response.choices` on the list-tools result, raising
`AttributeError`.  On success the assistant message is appended; with no
tool calls the direct text is the single fragment; otherwise the loop of
lines 100–165 runs and line 170 (or the early `return` of line 165) joins
the fragments with newlines. -/
def process_query (env : Env) (q : String) : QueryOutcome :=
  match env.listTools with
  | .error e => ⟨initMessages q, [], [], .error e⟩
  | .ok ts =>
    match env.initialCompletion (initMessages q) (availableTools ts) with
    | .error _ => ⟨initMessages q, [], [Event.llmCall initialParams], .error .attributeError⟩
    | .ok resp =>
      match resp.tool_calls with
      | [] =>
        ⟨initMessages q ++ [assistantMsg resp], [resp.content],
          [Event.llmCall initialParams], .ok (String.intercalate "\n" [resp.content])⟩
      | tc :: rest =>
        let L := runToolCalls env (initLoopState q resp) (tc :: rest)
        match L.2 with
        | .raised e => ⟨L.1.messages, L.1.final_text, L.1.events, .error e⟩
        | _ => ⟨L.1.messages, L.1.final_text, L.1.events,
                 .ok (String.intercalate "\n" L.1.final_text)⟩

/-- The response envelope of the `/query` route in `app.py`. -/
structure QueryResponseModel where
  success : Bool
  response : Option String
  error : Option String
deriving DecidableEq

/-- The `/query` handler of `app.py` (lines 79–91): a string from
`process_query` becomes a success envelope, an exception becomes
`success=False` with the exception text. -/
def queryEndpoint (env : Env) (q : String) : QueryResponseModel :=
  match (process_query env q).result with
  | .ok r => ⟨true, some r, none⟩
  | .error e => ⟨false, none, some e.text⟩

/-- `MCPClient.cleanup` (lines 195–206): close the exit stack; a
`ProcessLookupError` is passed over silently, any other exception is printed;
nothing is re-raised.  Returns the outcome together with the printed lines. -/
def cleanup (acloseOutcome : Except PyErr Unit) : Except PyErr Unit × List String :=
  match acloseOutcome with
  | .ok () => (.ok (), [])
  | .error .processLookupError => (.ok (), [])
  | .error e => (.ok (), ["Error during cleanup: " ++ e.text])

/-- The `session`-holding part of `MCPClient` state (`self.session`,
initialized to `None`). -/
structure ClientState where
  session : Option Nat
deriving DecidableEq

/-- Milestones of `connect_to_server`, in order. -/
inductive ConnectEvent where
  | transportCreated
  | sessionCreated
  | sessionInitDone
  | listedTools
deriving DecidableEq

/-- Oracles for the transport and session setup of `connect_to_server`. -/
structure ConnectEnv where
  stdioClient : Except PyErr Unit
  clientSession : Except PyErr Nat
  sessionInit : Except PyErr Unit
  listTools : Except PyErr (List ToolDescriptor)

/-- Result of `connect_to_server`: the client state when the function left,
the milestones reached, and the raised exception if any. -/
structure ConnectOutcome where
  st : ClientState
  events : List ConnectEvent
  result : Except PyErr Unit

/-- Python's `str.endswith`: the suffix's characters close the string. -/
def pyEndsWith (s suffix : String) : Bool := suffix.data.isSuffixOf s.data

/-- `MCPClient.connect_to_server` (lines 28–55): reject any path ending in
neither `.py` nor `.js` with `ValueError` before creating the transport;
otherwise enter the stdio transport, create and store the session, initialize
it and list the tools, propagating any failure. -/
def connect_to_server (st : ClientState) (path : String) (env : ConnectEnv) : ConnectOutcome :=
  let is_python := pyEndsWith path ".py"
  let is_js := pyEndsWith path ".js"
  if ¬ (is_python || is_js) then
    ⟨st, [], .error (.valueError "Server script must be a .py or .js file")⟩
  else
    let _command := if is_python then "python" else "node"
    match env.stdioClient with
    | .error e => ⟨st, [], .error e⟩
    | .ok _ =>
      match env.clientSession with
      | .error e => ⟨st, [.transportCreated], .error e⟩
      | .ok h =>
        let st1 : ClientState := { st with session := some h }
        match env.sessionInit with
        | .error e => ⟨st1, [.transportCreated, .sessionCreated], .error e⟩
        | .ok _ =>
          match env.listTools with
          | .error e => ⟨st1, [.transportCreated, .sessionCreated, .sessionInitDone], .error e⟩
          | .ok _ =>
            ⟨st1, [.transportCreated, .sessionCreated, .sessionInitDone, .listedTools], .ok ()⟩

/-- The exception carried by a step that ended in an uncaught raise, if
any. -/
def StepRes.raisedE : StepRes → Option PyErr
  | .stop _ (.raised e) => some e
  | _ => none

/-- The initial-completion response of the two-tool-call test environment. -/
def resp2 : InitialResponse :=
  ⟨"", [⟨"id1", "toolA", "\x7b\x7d"⟩, ⟨"id2", "toolB", "\x7b\x7d"⟩]⟩

/-- Test environment: two tool calls whose arguments parse, whose executions
succeed, and whose in-loop completions succeed. -/
def twoCallEnv : Env :=
  { listTools := .ok [⟨"toolA", "worker lookup", .obj []⟩, ⟨"toolB", "worker search", .obj []⟩]
  , initialCompletion := fun _ _ => .ok resp2
  , jsonLoads := fun s => if s = "\x7b\x7d" then .ok (.obj []) else .error (.exc "Expecting value")
  , callTool := fun _ _ => .ok (.pobj (some (.plist [])) none "CallToolResult()")
  , getPrompt := fun _ _ => .error (.exc "no prompt")
  , finalCompletion := fun _ => .ok "done" }

/-- Test environment: the first call carries malformed raw arguments. -/
def c2aEnv : Env :=
  { twoCallEnv with initialCompletion :=
      fun _ _ => .ok ⟨"", [⟨"id1", "toolA", "not json"⟩, ⟨"id2", "toolB", "\x7b\x7d"⟩]⟩ }

/-- The well-formed argument text of the first call of `c2bEnv`. -/
def widText : String := "\x7b\"worker_id\": \"42\"\x7d"

/-- The parsed arguments of the first call of `c2bEnv`. -/
def widArgs : JsonVal := .obj [("worker_id", .str "42")]

/-- Test environment: the first call parses, the second call carries
malformed raw arguments. -/
def c2bEnv : Env :=
  { twoCallEnv with
    initialCompletion := fun _ _ =>
      .ok ⟨"", [⟨"id1", "toolA", widText⟩, ⟨"id2", "toolB", "not json"⟩]⟩
  , jsonLoads := fun s => if s = widText then .ok widArgs else .error (.exc "Expecting value") }

/-- The initial-completion response of the single-tool-call environments. -/
def resp1 : InitialResponse := ⟨"", [⟨"id1", "toolA", "\x7b\x7d"⟩]⟩

/-- Test environment: one tool call whose execution raises. -/
def c4Env : Env :=
  { twoCallEnv with
    initialCompletion := fun _ _ => .ok resp1
  , callTool := fun _ _ => .error (.exc "tool exploded") }

/-- Test environment: tool calls succeed but every in-loop completion call
fails. -/
def c5wEnv : Env :=
  { twoCallEnv with finalCompletion := fun _ => .error (.exc "rate limited") }

/-- Test environment: the initial completion answers directly with no tool
calls. -/
def c7wEnv : Env :=
  { twoCallEnv with initialCompletion := fun _ _ => .ok ⟨"No workers found.", []⟩ }

/-- Parsed arguments embedding a template request. -/
def c8args : JsonVal :=
  .obj [("prompt_template", .str "welcome"), ("template_args", .obj [("name", .str "Jane")])]

/-- Test environment: the tool call's arguments carry a template request and
the prompt fetch succeeds with one assistant and one user line. -/
def c8wEnv : Env :=
  { twoCallEnv with
    jsonLoads := fun _ => .ok c8args
  , getPrompt := fun _ _ => .ok ⟨true, true,
      [⟨"assistant", .pobj none (some "rendered line") "TextContent"⟩,
       ⟨"user", .pstr "ignored"⟩]⟩ }

/-- Transport oracles that all succeed, for exercising `connect_to_server`. -/
def c10wEnv : ConnectEnv := ⟨.ok (), .ok 1, .ok (), .ok []⟩

/-- Number of in-loop (`finalParams`) completion calls on a trace. -/
def countFinalCalls (es : List Event) : Nat :=
  es.countP fun e =>
    match e with
    | .llmCall ps => decide (ps = finalParams)
    | _ => false

/-- Number of `tool`-role messages in a message list. -/
def countToolMsgs (ms : List Message) : Nat :=
  ms.countP fun m => decide (m.role = Role.tool)

/-- The `tool_call_id`s of the `tool`-role messages, in order. -/
def toolIdsOf (ms : List Message) : List (Option String) :=
  (ms.filter fun m => decide (m.role = Role.tool)).map fun m => m.tool_call_id

/-- A trace fits the loop's shape: a sequence of tool executions, each
either followed immediately by its own in-loop completion call or ending the
trace. -/
def blockShaped : List Event → Bool
  | [] => true
  | [Event.toolExec _] => true
  | Event.toolExec _ :: Event.llmCall ps :: rest => decide (ps = finalParams) && blockShaped rest
  | _ => false

@[simp]
lemma countToolMsgs_nil : countToolMsgs [] = 0 := rfl

@[simp]
lemma countToolMsgs_append (a b : List Message) :
    countToolMsgs (a ++ b) = countToolMsgs a + countToolMsgs b :=
  List.countP_append _ _ _

@[simp]
lemma countToolMsgs_toolMessage (id text : String) :
    countToolMsgs [toolMessage id text] = 1 := rfl

@[simp]
lemma countFinalCalls_nil : countFinalCalls [] = 0 := rfl

@[simp]
lemma countFinalCalls_append (a b : List Event) :
    countFinalCalls (a ++ b) = countFinalCalls a + countFinalCalls b :=
  List.countP_append _ _ _

@[simp]
lemma countFinalCalls_toolExec (n : String) :
    countFinalCalls [Event.toolExec n] = 0 := rfl

@[simp]
lemma countFinalCalls_finalCall :
    countFinalCalls [Event.llmCall finalParams] = 1 := rfl

@[simp]
lemma countFinalCalls_initialCall :
    countFinalCalls [Event.llmCall initialParams] = 0 := rfl

@[simp]
lemma blockShaped_cons2 (n : String) (l : List Event) :
    blockShaped (Event.toolExec n :: Event.llmCall finalParams :: l) = blockShaped l := by
  simp [blockShaped]

@[simp]
lemma toolIdsOf_nil : toolIdsOf [] = [] := rfl

@[simp]
lemma toolIdsOf_append (a b : List Message) :
    toolIdsOf (a ++ b) = toolIdsOf a ++ toolIdsOf b := by
  simp [toolIdsOf, List.filter_append]

@[simp]
lemma toolIdsOf_toolMessage (id text : String) :
    toolIdsOf [toolMessage id text] = [some id] := rfl

/-- One loop iteration either raises `UnboundLocalError` with `tool_args`
unbound, or runs the body with some bound argument value. -/
lemma proc_shape (env : Env) (st : LoopState) (tc : ToolCall) :
    processToolCall env st tc = .stop st (.raised .unboundLocalError) ∨
    ∃ args, processToolCall env st tc = execWithArgs env st tc args := by
  unfold processToolCall
  rcases hj : env.jsonLoads tc.arguments with e | v
  · rcases hl : st.lastArgs with _ | a
    · exact .inl (by simp)
    · exact .inr ⟨a, by simp⟩
  · exact .inr ⟨v, by simp⟩

/-- Components of `stAnnounced`. -/
@[simp]
lemma stAnnounced_messages (st : LoopState) (tc : ToolCall) (args : JsonVal) :
    (stAnnounced st tc args).messages = st.messages := rfl

@[simp]
lemma stAnnounced_final_text (st : LoopState) (tc : ToolCall) (args : JsonVal) :
    (stAnnounced st tc args).final_text = st.final_text ++ [announceOf tc.name args] := rfl

@[simp]
lemma stAnnounced_events (st : LoopState) (tc : ToolCall) (args : JsonVal) :
    (stAnnounced st tc args).events = st.events ++ [Event.toolExec tc.name] := rfl

@[simp]
lemma stAnnounced_executed (st : LoopState) (tc : ToolCall) (args : JsonVal) :
    (stAnnounced st tc args).executed = st.executed := rfl

/-- Components of `stResolved`. -/
@[simp]
lemma stResolved_messages (env : Env) (st : LoopState) (tc : ToolCall) (args : JsonVal)
    (text : String) :
    (stResolved env st tc args text).messages = st.messages ++ [toolMessage tc.id text] := rfl

@[simp]
lemma stResolved_final_text (env : Env) (st : LoopState) (tc : ToolCall) (args : JsonVal)
    (text : String) :
    (stResolved env st tc args text).final_text =
      st.final_text ++ [announceOf tc.name args] ++ [text] ++ templateFragments env args := rfl

@[simp]
lemma stResolved_events (env : Env) (st : LoopState) (tc : ToolCall) (args : JsonVal)
    (text : String) :
    (stResolved env st tc args text).events =
      st.events ++ [Event.toolExec tc.name] ++ [Event.llmCall finalParams] := rfl

@[simp]
lemma stResolved_executed (env : Env) (st : LoopState) (tc : ToolCall) (args : JsonVal)
    (text : String) :
    (stResolved env st tc args text).executed =
      st.executed ++ [(announceOf tc.name args, text)] := rfl

/-- Components of `withFrag`. -/
@[simp]
lemma withFrag_messages (st : LoopState) (f : String) :
    (withFrag st f).messages = st.messages := rfl

@[simp]
lemma withFrag_final_text (st : LoopState) (f : String) :
    (withFrag st f).final_text = st.final_text ++ [f] := rfl

@[simp]
lemma withFrag_events (st : LoopState) (f : String) :
    (withFrag st f).events = st.events := rfl

@[simp]
lemma withFrag_executed (st : LoopState) (f : String) :
    (withFrag st f).executed = st.executed := rfl

/-- The loop body ends in one of three ways: an exception right after the
tool execution, an early `return` after a failed in-loop completion, or a
normal continuation. -/
lemma exec_shape (env : Env) (st : LoopState) (tc : ToolCall) (args : JsonVal) :
    (∃ e, execWithArgs env st tc args = .stop (stAnnounced st tc args) (.raised e)) ∨
    (∃ text e, execWithArgs env st tc args =
        .stop (withFrag (stResolved env st tc args text) (errFinalText e)) (.finalCallFailed e)) ∨
    (∃ text s, execWithArgs env st tc args =
        .next (withFrag (stResolved env st tc args text) (okFinalText s))) := by
  unfold execWithArgs
  rcases hc : env.callTool tc.name args with e | resp
  · exact .inl ⟨e, by simp [hc]⟩
  · rcases hn : normalizeToolResponse resp with e | text
    · exact .inl ⟨e, by simp [hc, hn]⟩
    · rcases hf : env.finalCompletion (stResolved env st tc args text).messages with e | s
      · refine .inr (.inl ⟨text, e, ?_⟩)
        simp only [stResolved_messages] at hf
        simp [hc, hn, hf, withFrag, stResolved, stAnnounced]
      · refine .inr (.inr ⟨text, s, ?_⟩)
        simp only [stResolved_messages] at hf
        simp [hc, hn, hf, withFrag, stResolved, stAnnounced]


@[simp]
lemma countFinalCalls_blockPair (n : String) :
    countFinalCalls [Event.toolExec n, Event.llmCall finalParams] = 1 := rfl

/-- Whatever the environment does, the tool-call loop only appends to the
state, appends exactly one in-loop completion call per recorded `tool`
message, and leaves a trace in which every in-loop completion call
immediately follows the execution of its own tool call. -/
lemma runToolCalls_deltas (env : Env) (tcs : List ToolCall) :
    ∀ st : LoopState, ∃ dm df de dx,
      (runToolCalls env st tcs).1.messages = st.messages ++ dm ∧
      (runToolCalls env st tcs).1.final_text = st.final_text ++ df ∧
      (runToolCalls env st tcs).1.events = st.events ++ de ∧
      (runToolCalls env st tcs).1.executed = st.executed ++ dx ∧
      countToolMsgs dm = countFinalCalls de ∧
      blockShaped de = true := by
  induction tcs with
  | nil =>
    intro st
    refine ⟨[], [], [], [], ?_, ?_, ?_, ?_, rfl, rfl⟩ <;> simp [runToolCalls]
  | cons tc rest ih =>
    intro st
    rcases proc_shape env st tc with h | ⟨args, h⟩
    · refine ⟨[], [], [], [], ?_, ?_, ?_, ?_, rfl, rfl⟩ <;> simp [runToolCalls, h]
    · rcases exec_shape env st tc args with ⟨e, he⟩ | ⟨text, e, he⟩ | ⟨text, s, he⟩
      · refine ⟨[], [announceOf tc.name args], [Event.toolExec tc.name], [],
          ?_, ?_, ?_, ?_, rfl, rfl⟩ <;> simp [runToolCalls, h.trans he]
      · refine ⟨[toolMessage tc.id text],
          [announceOf tc.name args, text] ++ templateFragments env args ++ [errFinalText e],
          [Event.toolExec tc.name, Event.llmCall finalParams],
          [(announceOf tc.name args, text)], ?_, ?_, ?_, ?_, rfl, rfl⟩ <;>
          simp [runToolCalls, h.trans he]
      · obtain ⟨dm, df, de, dx, h1, h2, h3, h4, h5, h6⟩ :=
          ih (withFrag (stResolved env st tc args text) (okFinalText s))
        have hr : runToolCalls env st (tc :: rest) =
            runToolCalls env (withFrag (stResolved env st tc args text) (okFinalText s)) rest := by
          simp [runToolCalls, h.trans he]
        refine ⟨[toolMessage tc.id text] ++ dm,
          ([announceOf tc.name args, text] ++ templateFragments env args ++ [okFinalText s]) ++ df,
          [Event.toolExec tc.name, Event.llmCall finalParams] ++ de,
          [(announceOf tc.name args, text)] ++ dx, ?_, ?_, ?_, ?_, ?_, ?_⟩
        · rw [hr, h1]; simp
        · rw [hr, h2]; simp
        · rw [hr, h3]; simp
        · rw [hr, h4]; simp
        · rw [countToolMsgs_append, countFinalCalls_append, h5,
            countToolMsgs_toolMessage, countFinalCalls_blockPair]
        · simpa using h6

/-- When the loop completes normally, it has appended exactly one
`tool`-role message per requested tool call, carrying the calls' ids in
arrival order. -/
lemma runToolCalls_completed_ids (env : Env) (tcs : List ToolCall) :
    ∀ st : LoopState, (runToolCalls env st tcs).2 = .completed →
      toolIdsOf (runToolCalls env st tcs).1.messages =
        toolIdsOf st.messages ++ tcs.map fun tc => some tc.id := by
  induction tcs with
  | nil => intro st _; simp [runToolCalls]
  | cons tc rest ih =>
    intro st hc
    rcases proc_shape env st tc with h | ⟨args, h⟩
    · simp [runToolCalls, h] at hc
    · rcases exec_shape env st tc args with ⟨e, he⟩ | ⟨text, e, he⟩ | ⟨text, s, he⟩
      · simp [runToolCalls, h.trans he] at hc
      · simp [runToolCalls, h.trans he] at hc
      · have hr : runToolCalls env st (tc :: rest) =
            runToolCalls env (withFrag (stResolved env st tc args text) (okFinalText s)) rest := by
          simp [runToolCalls, h.trans he]
        rw [hr] at hc ⊢
        rw [ih _ hc]
        simp

/-- The announcement and the normalized result of every executed tool call
stay present in `final_text`: the loop only ever appends fragments. -/
lemma runToolCalls_executed_mem (env : Env) (tcs : List ToolCall) :
    ∀ st : LoopState,
      (∀ p ∈ st.executed, p.1 ∈ st.final_text ∧ p.2 ∈ st.final_text) →
      ∀ p ∈ (runToolCalls env st tcs).1.executed,
        p.1 ∈ (runToolCalls env st tcs).1.final_text ∧
        p.2 ∈ (runToolCalls env st tcs).1.final_text := by
  induction tcs with
  | nil => intro st hinv; simpa [runToolCalls] using hinv
  | cons tc rest ih =>
    intro st hinv
    rcases proc_shape env st tc with h | ⟨args, h⟩
    · simpa [runToolCalls, h] using hinv
    · rcases exec_shape env st tc args with ⟨e, he⟩ | ⟨text, e, he⟩ | ⟨text, s, he⟩
      · have hr : runToolCalls env st (tc :: rest) = (stAnnounced st tc args, .raised e) := by
          simp [runToolCalls, h.trans he]
        rw [hr]
        intro p hp
        obtain ⟨h1, h2⟩ := hinv p (by simpa using hp)
        exact ⟨by simp [h1], by simp [h2]⟩
      · have hr : runToolCalls env st (tc :: rest) =
            (withFrag (stResolved env st tc args text) (errFinalText e), .finalCallFailed e) := by
          simp [runToolCalls, h.trans he]
        rw [hr]
        intro p hp
        simp only [withFrag_executed, stResolved_executed, List.mem_append,
          List.mem_singleton] at hp
        rcases hp with hp | hp
        · obtain ⟨h1, h2⟩ := hinv p hp
          exact ⟨by simp [h1], by simp [h2]⟩
        · subst hp
          constructor <;> simp
      · have hr : runToolCalls env st (tc :: rest) =
            runToolCalls env (withFrag (stResolved env st tc args text) (okFinalText s)) rest := by
          simp [runToolCalls, h.trans he]
        rw [hr]
        apply ih
        intro p hp
        simp only [withFrag_executed, stResolved_executed, List.mem_append,
          List.mem_singleton] at hp
        rcases hp with hp | hp
        · obtain ⟨h1, h2⟩ := hinv p hp
          exact ⟨by simp [h1], by simp [h2]⟩
        · subst hp
          constructor <;> simp

/-- When the loop left through the early `return` of a failed in-loop
completion call, the error fragment is the last entry of `final_text`. -/
lemma runToolCalls_finalfail_last (env : Env) (tcs : List ToolCall) :
    ∀ (st : LoopState) (e : PyErr), (runToolCalls env st tcs).2 = .finalCallFailed e →
      (runToolCalls env st tcs).1.final_text.getLast? = some (errFinalText e) := by
  induction tcs with
  | nil => intro st e hc; simp [runToolCalls] at hc
  | cons tc rest ih =>
    intro st e hc
    rcases proc_shape env st tc with h | ⟨args, h⟩
    · simp [runToolCalls, h] at hc
    · rcases exec_shape env st tc args with ⟨e0, he⟩ | ⟨text, e0, he⟩ | ⟨text, s, he⟩
      · simp [runToolCalls, h.trans he] at hc
      · have hr : runToolCalls env st (tc :: rest) =
            (withFrag (stResolved env st tc args text) (errFinalText e0), .finalCallFailed e0) := by
          simp [runToolCalls, h.trans he]
        rw [hr] at hc ⊢
        have he0 : e0 = e := by simpa using hc
        subst he0
        rw [show (withFrag (stResolved env st tc args text) (errFinalText e0)).final_text =
            (st.final_text ++ [announceOf tc.name args] ++ [text] ++ templateFragments env args)
              ++ [errFinalText e0] by simp]
        exact List.getLast?_concat _
      · have hr : runToolCalls env st (tc :: rest) =
            runToolCalls env (withFrag (stResolved env st tc args text) (okFinalText s)) rest := by
          simp [runToolCalls, h.trans he]
        rw [hr] at hc ⊢
        exact ih _ e hc

@[simp]
lemma countToolMsgs_initMessages (q : String) : countToolMsgs (initMessages q) = 0 := rfl

@[simp]
lemma countToolMsgs_assistant (resp : InitialResponse) :
    countToolMsgs [assistantMsg resp] = 0 := rfl

/-- Reduction of `process_query` to the loop's state when the initial
completion requested tool calls: the observable components are those of the
loop, whatever its exit. -/
lemma pq_loop_parts (env : Env) (q : String) (ts : List ToolDescriptor)
    (resp : InitialResponse) (tc : ToolCall) (rest : List ToolCall)
    (hl : env.listTools = .ok ts)
    (hi : env.initialCompletion (initMessages q) (availableTools ts) = .ok resp)
    (hz : resp.tool_calls = tc :: rest) :
    (process_query env q).messages =
      (runToolCalls env (initLoopState q resp) (tc :: rest)).1.messages ∧
    (process_query env q).fragments =
      (runToolCalls env (initLoopState q resp) (tc :: rest)).1.final_text ∧
    (process_query env q).events =
      (runToolCalls env (initLoopState q resp) (tc :: rest)).1.events := by
  simp only [process_query, hl, hi, hz]
  refine ⟨?_, ?_, ?_⟩ <;> (split <;> rfl)

/-- When the loop did not end in an uncaught exception, `process_query`
returns the newline-join of the loop's fragments. -/
lemma pq_result_notraised (env : Env) (q : String) (ts : List ToolDescriptor)
    (resp : InitialResponse) (tc : ToolCall) (rest : List ToolCall)
    (hl : env.listTools = .ok ts)
    (hi : env.initialCompletion (initMessages q) (availableTools ts) = .ok resp)
    (hz : resp.tool_calls = tc :: rest)
    (hnr : ∀ e, (runToolCalls env (initLoopState q resp) (tc :: rest)).2 ≠ .raised e) :
    (process_query env q).result = .ok (String.intercalate "\n"
      (runToolCalls env (initLoopState q resp) (tc :: rest)).1.final_text) := by
  simp only [process_query, hl, hi, hz]

/-- When the loop ended in an uncaught exception, `process_query` raises
it. -/
lemma pq_result_raised (env : Env) (q : String) (ts : List ToolDescriptor)
    (resp : InitialResponse) (tc : ToolCall) (rest : List ToolCall) (e : PyErr)
    (hl : env.listTools = .ok ts)
    (hi : env.initialCompletion (initMessages q) (availableTools ts) = .ok resp)
    (hz : resp.tool_calls = tc :: rest)
    (hra : (runToolCalls env (initLoopState q resp) (tc :: rest)).2 = .raised e) :
    (process_query env q).result = .error e := by
  simp only [process_query, hl, hi, hz]
  split
  · next e' he' =>
    rw [hra] at he'
    injection he' with h
    simp [h]
  · next hne => exact absurd hra (hne e)

/-- C7: for every query for which the Model Invoker returns zero tool calls,
the string returned by `process_query` equals exactly the assistant message's
direct text, and the fragment sequence is that single text with no joining
artifacts. -/
theorem c7_direct_text (env : Env) (q : String) (ts : List ToolDescriptor)
    (resp : InitialResponse)
    (hl : env.listTools = .ok ts)
    (hi : env.initialCompletion (initMessages q) (availableTools ts) = .ok resp)
    (hz : resp.tool_calls = []) :
    (process_query env q).result = .ok resp.content ∧
    (process_query env q).fragments = [resp.content] := by
  have hq : process_query env q =
      ⟨initMessages q ++ [assistantMsg resp], [resp.content], [Event.llmCall initialParams],
        .ok (String.intercalate "\n" [resp.content])⟩ := by
    simp [process_query, hl, hi, hz]
  rw [hq]
  exact ⟨rfl, rfl⟩

/-- C7 witness: a direct "No workers found." answer is returned verbatim. -/
theorem c7_witness :
    (process_query c7wEnv "list workers").result = .ok "No workers found." ∧
    (process_query c7wEnv "list workers").fragments = ["No workers found."] :=
  c7_direct_text c7wEnv "list workers"
    [⟨"toolA", "worker lookup", .obj []⟩, ⟨"toolB", "worker search", .obj []⟩]
    ⟨"No workers found.", []⟩ rfl rfl rfl

/-- C9: `cleanup` treats a `ProcessLookupError` raised while closing the
session as a successful no-op release — it returns normally, raises nothing,
and prints nothing. -/
theorem c9_cleanup_swallows_process_lookup :
    cleanup (.error .processLookupError) = (.ok (), []) := rfl

/-- C10: for every server script path ending in neither `.py` nor `.js`,
`connect_to_server` raises `ValueError` before any transport or session
milestone, leaving the client state — in particular its `session` field —
untouched. -/
theorem c10_connect_rejects (st : ClientState) (path : String) (env : ConnectEnv)
    (hpy : pyEndsWith path ".py" = false) (hjs : pyEndsWith path ".js" = false) :
    (connect_to_server st path env).result =
      .error (.valueError "Server script must be a .py or .js file") ∧
    (connect_to_server st path env).events = [] ∧
    (connect_to_server st path env).st = st ∧
    (connect_to_server st path env).st.session = st.session := by
  have h : connect_to_server st path env =
      ⟨st, [], .error (.valueError "Server script must be a .py or .js file")⟩ := by
    simp [connect_to_server, hpy, hjs]
  rw [h]
  exact ⟨rfl, rfl, rfl, rfl⟩

/-- C10 witness: a `.txt` server script is rejected with the session still
`None`. -/
theorem c10_witness :
    (connect_to_server ⟨none⟩ "mcp-workday/get_worker_server.txt" c10wEnv).result =
      .error (.valueError "Server script must be a .py or .js file") ∧
    (connect_to_server ⟨none⟩ "mcp-workday/get_worker_server.txt" c10wEnv).events = [] ∧
    (connect_to_server ⟨none⟩ "mcp-workday/get_worker_server.txt" c10wEnv).st.session = none := by
  have h := c10_connect_rejects ⟨none⟩ "mcp-workday/get_worker_server.txt" c10wEnv
    (by decide) (by decide)
  exact ⟨h.1, h.2.1, h.2.2.2⟩

/-- C1 counterexample: with two successfully resolved tool calls, the code
issues TWO in-loop completion calls, not exactly one, and the first of them
occurs before the second tool call has been resolved — refuting "exactly one
final Model Invoker call, only after all requested tool calls have been
resolved". -/
theorem c1_counterexample :
    (process_query twoCallEnv "find worker 42").events =
      [Event.llmCall initialParams, Event.toolExec "toolA", Event.llmCall finalParams,
       Event.toolExec "toolB", Event.llmCall finalParams] ∧
    countFinalCalls (process_query twoCallEnv "find worker 42").events = 2 ∧
    countFinalCalls (process_query twoCallEnv "find worker 42").events ≠ 1 :=
  ⟨rfl, rfl, by decide⟩

/-- C1 (amended): the Orchestrator issues one tool-free, `temperature=0.5`
completion call per resolved tool call — as many as there are recorded
`tool` messages, not one per query — and each such call comes immediately
after the execution of its own tool call; the initial call passes the tool
descriptors with no explicit temperature, so the in-loop calls use a
distinct, lower temperature. -/
theorem c1_amended (env : Env) (q : String) :
    countFinalCalls (process_query env q).events =
      countToolMsgs (process_query env q).messages ∧
    ((process_query env q).events = [] ∨
      (process_query env q).events.head? = some (Event.llmCall initialParams)) ∧
    blockShaped ((process_query env q).events.drop 1) = true ∧
    initialParams.withTools = true ∧
    finalParams.withTools = false ∧
    finalParams.temperature = some 5 ∧
    finalParams.temperature.getD 10 < initialParams.temperature.getD 10 := by
  rcases hl : env.listTools with e | ts
  · have hq : process_query env q = ⟨initMessages q, [], [], .error e⟩ := by
      simp [process_query, hl]
    rw [hq]
    exact ⟨rfl, .inl rfl, rfl, rfl, rfl, rfl, by decide⟩
  · rcases hi : env.initialCompletion (initMessages q) (availableTools ts) with e | resp
    · have hq : process_query env q =
          ⟨initMessages q, [], [Event.llmCall initialParams], .error .attributeError⟩ := by
        simp [process_query, hl, hi]
      rw [hq]
      exact ⟨rfl, .inr rfl, rfl, rfl, rfl, rfl, by decide⟩
    · rcases hz : resp.tool_calls with _ | ⟨tc, rest⟩
      · have hq : process_query env q =
            ⟨initMessages q ++ [assistantMsg resp], [resp.content],
              [Event.llmCall initialParams],
              .ok (String.intercalate "\n" [resp.content])⟩ := by
          simp [process_query, hl, hi, hz]
        rw [hq]
        exact ⟨rfl, .inr rfl, rfl, rfl, rfl, rfl, by decide⟩
      · obtain ⟨hm, -, he⟩ := pq_loop_parts env q ts resp tc rest hl hi hz
        obtain ⟨dm, df, de, dx, h1, h2, h3, h4, h5, h6⟩ :=
          runToolCalls_deltas env (tc :: rest) (initLoopState q resp)
        refine ⟨?_, ?_, ?_, rfl, rfl, rfl, by decide⟩
        · rw [he, hm, h3, h1, countFinalCalls_append, countToolMsgs_append, h5]
          rfl
        · right
          rw [he, h3]
          rfl
        · rw [he, h3]
          exact h6

/-- C2 (code bug): the `except` around `json.loads` only prints, so a parse
failure does not skip the entry.  When the FIRST call's arguments are
malformed, line 108 reads the never-assigned local `tool_args` and the loop
dies with `UnboundLocalError` before any tool executes — including calls
2..N, which the claim requires to still run.  When a LATER call's arguments
are malformed, that call is executed anyway with the previous call's stale
arguments instead of being skipped. -/
theorem c2_parse_failure_bug :
    (process_query c2aEnv "q").result = .error .unboundLocalError ∧
    (process_query c2aEnv "q").events = [Event.llmCall initialParams] ∧
    countToolMsgs (process_query c2aEnv "q").messages = 0 ∧
    (process_query c2aEnv "q").fragments = [] ∧
    (process_query c2bEnv "q").events =
      [Event.llmCall initialParams, Event.toolExec "toolA", Event.llmCall finalParams,
       Event.toolExec "toolB", Event.llmCall finalParams] ∧
    (process_query c2bEnv "q").fragments.get? 3 = some (announceOf "toolB" widArgs) :=
  ⟨rfl, rfl, rfl, rfl, rfl, rfl⟩

/-- C3 (code bug): the normalization branches on the type of the whole
response object after already dereferencing `.content`.  A raw result that
is a sequence of content items raises `AttributeError` instead of yielding
the concatenated item texts, a raw result that is already text also raises
`AttributeError` instead of passing through verbatim, and an ordinary
content-bearing response object is stringified whole — the spec's rule
(`specToolResultRule`) disagrees with the code on the first two shapes. -/
theorem c3_normalization_bug :
    normalizeToolResponse (PyObj.plist
        [PyObj.pobj none (some "A") "TextContent", PyObj.pobj none (some "B") "TextContent"])
      = .error .attributeError ∧
    specToolResultRule (PyObj.plist
        [PyObj.pobj none (some "A") "TextContent", PyObj.pobj none (some "B") "TextContent"])
      = "AB" ∧
    normalizeToolResponse (PyObj.pstr "already text") = .error .attributeError ∧
    specToolResultRule (PyObj.pstr "already text") = "already text" ∧
    normalizeToolResponse (PyObj.pobj
        (some (PyObj.plist [PyObj.pobj none (some "A") "TextContent"])) none
        "CallToolResult(content=[...])")
      = .ok "CallToolResult(content=[...])" :=
  ⟨rfl, rfl, rfl, rfl, rfl⟩

/-- C4 counterexample: when the tool execution raises, the error is NOT
surfaced as the call's result text — `process_query` raises it — and no
`tool` message is appended to Conversation State. -/
theorem c4_counterexample :
    (process_query c4Env "q").result = .error (.exc "tool exploded") ∧
    countToolMsgs (process_query c4Env "q").messages = 0 :=
  ⟨rfl, rfl⟩

/-- C4 (amended): a failure of `session.call_tool` propagates out of the
loop as an uncaught exception: the failing call leaves Conversation State
untouched (no `tool` message at all), only its announcement fragment behind,
and no later call runs; at the service boundary the `/query` handler of
`app.py` converts the escaped exception into a `success=False` envelope
carrying the error text. -/
theorem c4_amended (env : Env) (st : LoopState) (tc : ToolCall) (rest : List ToolCall)
    (args : JsonVal) (e : PyErr)
    (hj : env.jsonLoads tc.arguments = .ok args)
    (hct : env.callTool tc.name args = .error e) :
    (runToolCalls env st (tc :: rest)).2 = .raised e ∧
    (runToolCalls env st (tc :: rest)).1.messages = st.messages ∧
    (runToolCalls env st (tc :: rest)).1.final_text =
      st.final_text ++ [announceOf tc.name args] ∧
    ∀ q ts resp, env.listTools = .ok ts →
      env.initialCompletion (initMessages q) (availableTools ts) = .ok resp →
      resp.tool_calls = tc :: rest → st = initLoopState q resp →
      (process_query env q).result = .error e ∧
      queryEndpoint env q = ⟨false, none, some e.text⟩ := by
  have hstep : processToolCall env st tc = .stop (stAnnounced st tc args) (.raised e) := by
    simp [processToolCall, hj, execWithArgs, hct]
  have hr : runToolCalls env st (tc :: rest) = (stAnnounced st tc args, .raised e) := by
    simp [runToolCalls, hstep]
  refine ⟨by rw [hr], by rw [hr]; rfl, by rw [hr]; rfl, ?_⟩
  intro q ts resp hl hi hz hst
  subst hst
  have hres : (process_query env q).result = .error e :=
    pq_result_raised env q ts resp tc rest e hl hi hz (by rw [hr])
  exact ⟨hres, by simp [queryEndpoint, hres]⟩

/-- C4 amended witness: a concrete exploding tool call escapes
`process_query` leaving no `tool` message, and the boundary reports it. -/
theorem c4_amended_witness :
    (runToolCalls c4Env (initLoopState "q" resp1) (⟨"id1", "toolA", "\x7b\x7d"⟩ :: [])).2 =
      .raised (.exc "tool exploded") ∧
    (runToolCalls c4Env (initLoopState "q" resp1) (⟨"id1", "toolA", "\x7b\x7d"⟩ :: [])).1.messages =
      (initLoopState "q" resp1).messages ∧
    (runToolCalls c4Env (initLoopState "q" resp1) (⟨"id1", "toolA", "\x7b\x7d"⟩ :: [])).1.final_text =
      (initLoopState "q" resp1).final_text ++ [announceOf "toolA" (.obj [])] ∧
    ∀ q ts resp, c4Env.listTools = .ok ts →
      c4Env.initialCompletion (initMessages q) (availableTools ts) = .ok resp →
      resp.tool_calls = ⟨"id1", "toolA", "\x7b\x7d"⟩ :: [] →
      initLoopState "q" resp1 = initLoopState q resp →
      (process_query c4Env q).result = .error (.exc "tool exploded") ∧
      queryEndpoint c4Env q = ⟨false, none, some "tool exploded"⟩ :=
  c4_amended c4Env (initLoopState "q" resp1) ⟨"id1", "toolA", "\x7b\x7d"⟩ [] (.obj [])
    (.exc "tool exploded") rfl rfl

/-- C5: if an in-loop completion call fails after at least one tool call was
executed, `process_query` still RETURNS (it does not raise) the
newline-joined fragments, the error text is the last fragment, and the
announcement and normalized result of every executed tool call are present
among the fragments. -/
theorem c5_final_failure_preserves_work (env : Env) (q : String)
    (ts : List ToolDescriptor) (resp : InitialResponse) (e : PyErr)
    (hl : env.listTools = .ok ts)
    (hi : env.initialCompletion (initMessages q) (availableTools ts) = .ok resp)
    (hne : resp.tool_calls ≠ [])
    (hfail : (runToolCalls env (initLoopState q resp) resp.tool_calls).2 =
      .finalCallFailed e) :
    (process_query env q).result =
      .ok (String.intercalate "\n" (process_query env q).fragments) ∧
    (process_query env q).fragments.getLast? = some (errFinalText e) ∧
    ∀ p ∈ (runToolCalls env (initLoopState q resp) resp.tool_calls).1.executed,
      p.1 ∈ (process_query env q).fragments ∧ p.2 ∈ (process_query env q).fragments := by
  rcases hz : resp.tool_calls with _ | ⟨tc, rest⟩
  · exact absurd hz hne
  · rw [hz] at hfail
    obtain ⟨-, hf, -⟩ := pq_loop_parts env q ts resp tc rest hl hi hz
    refine ⟨?_, ?_, ?_⟩
    · rw [hf]
      refine pq_result_notraised env q ts resp tc rest hl hi hz ?_
      intro e' h'
      rw [hfail] at h'
      exact LoopExit.noConfusion h'
    · rw [hf]
      exact runToolCalls_finalfail_last env (tc :: rest) (initLoopState q resp) e hfail
    · rw [hf]
      exact runToolCalls_executed_mem env (tc :: rest) (initLoopState q resp)
        (by intro p hp; simp [initLoopState] at hp)

/-- C5 witness: with the in-loop completion failing on the first call, the
run still returns the joined fragments with the error text last, and the
executed call's announcement and result are present. -/
theorem c5_witness :
    (process_query c5wEnv "q").result =
      .ok (String.intercalate "\n" (process_query c5wEnv "q").fragments) ∧
    (process_query c5wEnv "q").fragments.getLast? = some (errFinalText (.exc "rate limited")) ∧
    ∀ p ∈ (runToolCalls c5wEnv (initLoopState "q" resp2) resp2.tool_calls).1.executed,
      p.1 ∈ (process_query c5wEnv "q").fragments ∧ p.2 ∈ (process_query c5wEnv "q").fragments :=
  c5_final_failure_preserves_work c5wEnv "q"
    [⟨"toolA", "worker lookup", .obj []⟩, ⟨"toolB", "worker search", .obj []⟩]
    resp2 (.exc "rate limited") rfl rfl (by decide) rfl

/-- C6: when the initial completion requests N tool calls and the loop runs
them all to completion, Conversation State gains exactly N `tool` messages
whose `tool_call_id`s match the requested ids in order, with no omission,
duplication or reordering. -/
theorem c6_tool_messages_match (env : Env) (q : String)
    (ts : List ToolDescriptor) (resp : InitialResponse)
    (hl : env.listTools = .ok ts)
    (hi : env.initialCompletion (initMessages q) (availableTools ts) = .ok resp)
    (hne : resp.tool_calls ≠ [])
    (hcomp : (runToolCalls env (initLoopState q resp) resp.tool_calls).2 = .completed) :
    toolIdsOf (process_query env q).messages =
      resp.tool_calls.map (fun t => some t.id) ∧
    countToolMsgs (process_query env q).messages = resp.tool_calls.length := by
  rcases hz : resp.tool_calls with _ | ⟨tc, rest⟩
  · exact absurd hz hne
  · rw [hz] at hcomp
    obtain ⟨hm, -, -⟩ := pq_loop_parts env q ts resp tc rest hl hi hz
    have hids := runToolCalls_completed_ids env (tc :: rest) (initLoopState q resp) hcomp
    have hids0 : toolIdsOf (initLoopState q resp).messages = [] := rfl
    have hcount : ∀ ms : List Message, countToolMsgs ms = (toolIdsOf ms).length := by
      intro ms
      simp [countToolMsgs, toolIdsOf, List.countP_eq_length_filter]
    constructor
    · rw [hm, hids, hids0]
      simp
    · rw [hm, hcount, hids, hids0]
      simp

/-- C6 witness: two successfully resolved calls yield exactly the two `tool`
messages `id1`, `id2` in order. -/
theorem c6_witness :
    toolIdsOf (process_query twoCallEnv "q").messages =
      resp2.tool_calls.map (fun t => some t.id) ∧
    countToolMsgs (process_query twoCallEnv "q").messages = resp2.tool_calls.length :=
  c6_tool_messages_match twoCallEnv "q"
    [⟨"toolA", "worker lookup", .obj []⟩, ⟨"toolB", "worker search", .obj []⟩]
    resp2 rfl rfl (by decide) rfl

/-- C8: for a detected TemplateRequest, the expansion output lands only in
the `final_text` fragments — Conversation State gains exactly the `tool`
message and nothing else; the call's processing is never interrupted by the
template block (no exception escapes it, and a successful in-loop completion
still continues the loop); and every surfaced line stems from an
assistant-authored message of a successfully fetched template. -/
theorem c8_template_isolation (env : Env) (st : LoopState) (tc : ToolCall)
    (args : JsonVal) (resp : PyObj) (text : String)
    (hj : env.jsonLoads tc.arguments = .ok args)
    (hd : isTemplateRequest args = true)
    (hct : env.callTool tc.name args = .ok resp)
    (hn : normalizeToolResponse resp = .ok text) :
    (processToolCall env st tc).state.messages = st.messages ++ [toolMessage tc.id text] ∧
    (∃ last, (processToolCall env st tc).state.final_text =
      st.final_text ++ [announceOf tc.name args, text] ++ templateFragments env args ++ [last]) ∧
    (processToolCall env st tc).raisedE = none ∧
    (∀ s, env.finalCompletion (st.messages ++ [toolMessage tc.id text]) = .ok s →
      processToolCall env st tc = .next (withFrag (stResolved env st tc args text) (okFinalText s))) ∧
    (∀ s' ∈ templateFragments env args, ∃ pt targs tr m,
      argsLookup args "prompt_template" = some pt ∧
      argsLookup args "template_args" = some (JsonVal.obj targs) ∧
      env.getPrompt pt (stringArgs targs) = .ok tr ∧
      m ∈ tr.messages ∧ m.role = "assistant" ∧ s' = templateLine m) := by
  have hp : processToolCall env st tc = execWithArgs env st tc args := by
    simp [processToolCall, hj]
  have htf : ∀ s' ∈ templateFragments env args, ∃ pt targs tr m,
      argsLookup args "prompt_template" = some pt ∧
      argsLookup args "template_args" = some (JsonVal.obj targs) ∧
      env.getPrompt pt (stringArgs targs) = .ok tr ∧
      m ∈ tr.messages ∧ m.role = "assistant" ∧ s' = templateLine m := by
    intro s' hs'
    rcases args with s0 | n0 | b0 | _ | xs | kvs
    · simp [isTemplateRequest, argsLookup] at hd
    · simp [isTemplateRequest, argsLookup] at hd
    · simp [isTemplateRequest, argsLookup] at hd
    · simp [isTemplateRequest, argsLookup] at hd
    · simp [isTemplateRequest, argsLookup] at hd
    · rcases hpt : kvs.lookup "prompt_template" with _ | pt
      · simp [isTemplateRequest, argsLookup, hpt] at hd
      · rcases hta : kvs.lookup "template_args" with _ | ta
        · simp [isTemplateRequest, argsLookup, hta] at hd
        · rcases ta with s1 | n1 | b1 | _ | xs1 | targs
          · simp [templateFragments, hpt, hta] at hs'
          · simp [templateFragments, hpt, hta] at hs'
          · simp [templateFragments, hpt, hta] at hs'
          · simp [templateFragments, hpt, hta] at hs'
          · simp [templateFragments, hpt, hta] at hs'
          · simp only [templateFragments, hpt, hta] at hs'
            rcases hgp : env.getPrompt pt (stringArgs targs) with e0 | tr
            · rw [hgp] at hs'
              simp at hs'
            · rw [hgp] at hs'
              by_cases hflag : (tr.hasMessagesAttr && tr.hasMessageAttr) = true
              · simp only [if_pos hflag, List.mem_map, List.mem_filter] at hs'
                obtain ⟨m, ⟨hmm, hrole⟩, hline⟩ := hs'
                exact ⟨pt, targs, tr, m, by simp [argsLookup, hpt],
                  by simp [argsLookup, hta], hgp, hmm, eq_of_beq hrole, hline.symm⟩
              · simp only [if_neg hflag] at hs'
                exact absurd hs' (List.not_mem_nil s')
  rcases hfc : env.finalCompletion (st.messages ++ [toolMessage tc.id text]) with e | s
  · have hstep : processToolCall env st tc =
        .stop (withFrag (stResolved env st tc args text) (errFinalText e))
          (.finalCallFailed e) := by
      rw [hp]
      unfold execWithArgs
      simp [hct, hn, hfc]
    refine ⟨?_, ⟨errFinalText e, ?_⟩, ?_, ?_, htf⟩
    · rw [hstep]
      rfl
    · rw [hstep]
      simp [StepRes.state]
    · rw [hstep]
      rfl
    · intro s hs
      exact Except.noConfusion hs
  · have hstep : processToolCall env st tc =
        .next (withFrag (stResolved env st tc args text) (okFinalText s)) := by
      rw [hp]
      unfold execWithArgs
      simp [hct, hn, hfc]
    refine ⟨?_, ⟨okFinalText s, ?_⟩, ?_, ?_, htf⟩
    · rw [hstep]
      rfl
    · rw [hstep]
      simp [StepRes.state]
    · rw [hstep]
      rfl
    · intro s1 hs1
      injection hs1 with h
      rw [hstep, h]

/-- C8 witness: a concrete template request is expanded into fragments only,
with the `tool` message the sole addition to Conversation State. -/
theorem c8_witness :
    (processToolCall c8wEnv ⟨[], [], [], none, []⟩ ⟨"id1", "toolA", "X"⟩).state.messages =
      ([] : List Message) ++ [toolMessage "id1" "CallToolResult()"] ∧
    (∃ last, (processToolCall c8wEnv ⟨[], [], [], none, []⟩ ⟨"id1", "toolA", "X"⟩).state.final_text =
      ([] : List String) ++ [announceOf "toolA" c8args, "CallToolResult()"]
        ++ templateFragments c8wEnv c8args ++ [last]) ∧
    (processToolCall c8wEnv ⟨[], [], [], none, []⟩ ⟨"id1", "toolA", "X"⟩).raisedE = none ∧
    (∀ s, c8wEnv.finalCompletion (([] : List Message) ++ [toolMessage "id1" "CallToolResult()"]) = .ok s →
      processToolCall c8wEnv ⟨[], [], [], none, []⟩ ⟨"id1", "toolA", "X"⟩ =
        .next (withFrag (stResolved c8wEnv ⟨[], [], [], none, []⟩ ⟨"id1", "toolA", "X"⟩ c8args
          "CallToolResult()") (okFinalText s))) ∧
    (∀ s' ∈ templateFragments c8wEnv c8args, ∃ pt targs tr m,
      argsLookup c8args "prompt_template" = some pt ∧
      argsLookup c8args "template_args" = some (JsonVal.obj targs) ∧
      c8wEnv.getPrompt pt (stringArgs targs) = .ok tr ∧
      m ∈ tr.messages ∧ m.role = "assistant" ∧ s' = templateLine m) :=
  c8_template_isolation c8wEnv ⟨[], [], [], none, []⟩ ⟨"id1", "toolA", "X"⟩ c8args
    (.pobj (some (.plist [])) none "CallToolResult()") "CallToolResult()" rfl rfl rfl rfl
